import Mathlib

/-!
Shallow embedding of the SecureShare link-sharing core (src/app.py) and
verification of its lifecycle/eviction behaviour.

Modelling conventions:
* Timestamps are integers (seconds); `datetime.utcnow()` becomes an explicit
  `now : Int` argument threaded into each operation.
* The SQLAlchemy `Link` table becomes a list of `Link` records; `url_key` is
  declared `unique=True` in the schema, which theorems take as the
  `keysUnique` hypothesis where it matters.
* The uploads directory becomes an association list from path to stored
  (encrypted) bytes; `os.path.exists` is lookup, `os.remove` removes the
  entry.  `os.remove` may fail (the code wraps it in try/except); the
  Boolean `removeOk` argument says whether it succeeds.
* Fernet encryption/decryption with the process-wide key is abstracted as
  functions `enc : String → String` and `dec : String → Option String`
  (`none` models a raised `InvalidToken`).  Bytes are modelled as `String`.
* Python `int(...)` on a string is modelled by `int_parse` (optional sign
  plus decimal digits); Python truthiness of a string/optional-string is
  emptiness/`none`.
* Each serve-like operation additionally returns the ordered trace of
  destructive storage actions it performed (record delete, blob delete),
  so that ordering claims about eviction are statable.
-/

namespace SecureShare

/-- The persisted entity (src/app.py, class Link, lines 32-48).
`views` has DB default 0 and is only ever incremented, so it is a `Nat`;
`max_views` is a nullable DB integer and (via the JSON API) can hold any
integer, so it is `Option Int`. -/
structure Link where
  url_key : String
  is_file : Bool
  filename : Option String
  file_path : Option String
  mime_type : Option String
  content : Option String
  expiry_time : Option Int
  max_views : Option Int
  views : Nat
deriving DecidableEq, Repr

/-- Combined storage state: the `Link` table rows and the uploads folder
(path ↦ stored encrypted bytes). -/
structure St where
  db : List Link
  fs : List (String × String)
deriving DecidableEq, Repr

/-- `Link.query.filter_by(url_key=key).first()`. -/
def findLink (db : List Link) (key : String) : Option Link :=
  db.find? (fun l => l.url_key == key)

/-- `db.session.delete(link)` for the row found under `key` (removes the
first matching row). -/
def deleteLink (db : List Link) (key : String) : List Link :=
  db.eraseP (fun l => l.url_key == key)

/-- Committing an attribute update on the ORM object found under `key`:
the first matching row is replaced by `l'`. -/
def updateLink (key : String) (l' : Link) : List Link → List Link
  | [] => []
  | l :: rest => if l.url_key == key then l' :: rest else l :: updateLink key l' rest

/-- Destructive storage actions, in the order the code performs them. -/
inductive Evt where
  | delRec : String → Evt
  | delBlob : String → Evt
deriving DecidableEq, Repr

/-- `if fp and os.path.exists(fp): try: os.remove(fp) except: pass`
(src/app.py lines 231-235 and the five analogous blocks).  Returns the
new filesystem and the attempted blob-deletion events. -/
def tryRemove (removeOk : Bool) (fs : List (String × String)) (fp : Option String) :
    List (String × String) × List Evt :=
  match fp with
  | none => (fs, [])
  | some p =>
    if p ≠ "" ∧ (fs.lookup p).isSome then
      (if removeOk then fs.filter (fun e => e.1 ≠ p) else fs, [Evt.delBlob p])
    else (fs, [])

/-- Time-expiry test, src/app.py line 227 / 297:
`link.expiry_time and datetime.utcnow() > link.expiry_time`. -/
def timeExpired (link : Link) (now : Int) : Bool :=
  match link.expiry_time with
  | some e => decide (now > e)
  | none => false

/-- View-budget test, src/app.py line 239 / 271 / 309 / 335:
`link.max_views is not None and link.views >= link.max_views`. -/
def viewsExhausted (link : Link) : Bool :=
  match link.max_views with
  | some m => decide ((link.views : Int) ≥ m)
  | none => false

/-- The eviction block repeated throughout `serve`/`download_file`:
delete the DB row, then best-effort remove the blob from disk. -/
def evict (removeOk : Bool) (key : String) (fp : Option String) (st : St) :
    St × List Evt :=
  (⟨deleteLink st.db key, (tryRemove removeOk st.fs fp).1⟩,
    Evt.delRec key :: (tryRemove removeOk st.fs fp).2)

/-- What a record's page (`content.html`) can show. -/
structure FileInfo where
  filename : Option String
  key : String
deriving DecidableEq, Repr

/-- Outcome of `serve` (route `/⟨key⟩`, src/app.py lines 220-287). -/
inductive ServeResult where
  | notFound
  | expiredTime
  | expiredViews
  | page (content : Option String) (file : Option FileInfo) (remaining : Option Int)
deriving DecidableEq, Repr

/-- Decryption of the text payload for the page (src/app.py lines 250-256):
`"[Error: could not decrypt content]"` when Fernet raises. -/
def contentPlain (dec : String → Option String) (link : Link) : Option String :=
  match link.content with
  | none => none
  | some c =>
    if c = "" then none
    else
      match dec c with
      | some p => some p
      | none => some "[Error: could not decrypt content]"

/-- File download info shown on the page (src/app.py lines 258-264). -/
def fileInfo (st : St) (key : String) (link : Link) : Option FileInfo :=
  match link.file_path with
  | some p =>
    if link.is_file && (p != "") && (st.fs.lookup p).isSome then
      some ⟨link.filename, key⟩
    else none
  | none => none

/-- `remaining=(link.max_views - link.views) if link.max_views else None`
(src/app.py line 286), evaluated after the increment; Python truthiness
makes `max_views = 0` fall to `None`. -/
def remainingOf (link : Link) : Option Int :=
  match link.max_views with
  | some m => if m ≠ 0 then some (m - (link.views + 1 : Nat)) else none
  | none => none

/-- The record with its view counter incremented (src/app.py line 267). -/
def incViews (link : Link) : Link := { link with views := link.views + 1 }

/-- Body of the `/⟨key⟩` view route once the record was found
(src/app.py lines 226-287). -/
def serveLink (dec : String → Option String) (removeOk : Bool) (now : Int)
    (key : String) (st : St) (link : Link) : St × ServeResult × List Evt :=
  if timeExpired link now then
      ((evict removeOk key link.file_path st).1, ServeResult.expiredTime,
        (evict removeOk key link.file_path st).2)
    else if viewsExhausted link then
      ((evict removeOk key link.file_path st).1, ServeResult.expiredViews,
        (evict removeOk key link.file_path st).2)
    else
      let db1 := updateLink key (incViews link) st.db
      let res := ServeResult.page (contentPlain dec link) (fileInfo st key link)
        (remainingOf link)
      if viewsExhausted (incViews link) then
        ((evict removeOk key link.file_path ⟨db1, st.fs⟩).1, res,
          (evict removeOk key link.file_path ⟨db1, st.fs⟩).2)
      else
        (⟨db1, st.fs⟩, res, [])

/-- The `/⟨key⟩` view route (src/app.py lines 220-287), with `dec` the
Fernet text decryption (`none` = `InvalidToken` raised) and `removeOk`
whether `os.remove` succeeds. -/
def serve (dec : String → Option String) (removeOk : Bool) (now : Int)
    (key : String) (st : St) : St × ServeResult × List Evt :=
  match findLink st.db key with
  | none => (st, ServeResult.notFound, [])
  | some link => serveLink dec removeOk now key st link

/-- Outcome of `download_file` (route `/download/⟨key⟩`, src/app.py
lines 290-361). -/
inductive DlResult where
  | notFound
  | expiredTime
  | expiredViews
  | fileMissing
  | decryptFail
  | fileOut (data : String) (filename : String) (mime : String)
deriving DecidableEq, Repr

/-- `filename = link.filename or f"{key}.bin"` (src/app.py line 338). -/
def dlFilename (key : String) (link : Link) : String :=
  match link.filename with
  | some f => if f = "" then key ++ ".bin" else f
  | none => key ++ ".bin"

/-- `mime = link.mime_type or 'application/octet-stream'` (src/app.py line 339). -/
def dlMime (link : Link) : String :=
  match link.mime_type with
  | some m => if m = "" then "application/octet-stream" else m
  | none => "application/octet-stream"

/-- Body of the `/download/⟨key⟩` route once the record was found
(src/app.py lines 293-361). -/
def downloadLink (decB : String → Option String) (removeOk : Bool) (now : Int)
    (key : String) (st : St) (link : Link) : St × DlResult × List Evt :=
  if !link.is_file then (st, DlResult.notFound, [])
    else if timeExpired link now then
      ((evict removeOk key link.file_path st).1, DlResult.expiredTime,
        (evict removeOk key link.file_path st).2)
    else if viewsExhausted link then
      ((evict removeOk key link.file_path st).1, DlResult.expiredViews,
        (evict removeOk key link.file_path st).2)
    else
      match link.file_path with
      | none => (st, DlResult.fileMissing, [])
      | some p =>
        if p = "" then (st, DlResult.fileMissing, [])
        else
          match st.fs.lookup p with
          | none => (st, DlResult.fileMissing, [])
          | some encBytes =>
            match decB encBytes with
            | none => (st, DlResult.decryptFail, [])
            | some data =>
              let db1 := updateLink key (incViews link) st.db
              if viewsExhausted (incViews link) then
                ((evict removeOk key link.file_path ⟨db1, st.fs⟩).1,
                  DlResult.fileOut data (dlFilename key link) (dlMime link),
                  (evict removeOk key link.file_path ⟨db1, st.fs⟩).2)
              else
                (⟨db1, st.fs⟩, DlResult.fileOut data (dlFilename key link) (dlMime link), [])

/-- The `/download/⟨key⟩` route (src/app.py lines 290-361); `decB` is the
Fernet byte decryption. -/
def download_file (decB : String → Option String) (removeOk : Bool) (now : Int)
    (key : String) (st : St) : St × DlResult × List Evt :=
  match findLink st.db key with
  | none => (st, DlResult.notFound, [])
  | some link => downloadLink decB removeOk now key st link

/-- Digit-string accumulator for `int_parse`. -/
def parseDigits (acc : Nat) : List Char → Option Nat
  | [] => some acc
  | c :: cs =>
    if '0' ≤ c ∧ c ≤ '9' then parseDigits (acc * 10 + (c.toNat - '0'.toNat)) cs
    else none

/-- Python `int(s)` on a form string: an optional sign followed by decimal
digits (raises `ValueError` ↦ `none`; whitespace/underscore trivia is out
of the modelled scope). -/
def int_parse (s : String) : Option Int :=
  match s.data with
  | [] => none
  | '-' :: cs =>
    match cs with
    | [] => none
    | _ => (parseDigits 0 cs).map (fun n => -(n : Int))
  | '+' :: cs =>
    match cs with
    | [] => none
    | _ => (parseDigits 0 cs).map (fun n => (n : Int))
  | cs => (parseDigits 0 cs).map (fun n => (n : Int))

/-- `parse_expiry` (src/app.py lines 88-107); timestamps in seconds, so a
minute is 60, an hour 3600, a day 86400. -/
def parse_expiry (expiry_value : String) (expiry_unit : String) (now : Int) :
    Option Int :=
  if expiry_value = "" then none
  else
    match int_parse expiry_value with
    | none => none
    | some v =>
      if v ≤ 0 then none
      else if expiry_unit = "minutes" then some (now + 60 * v)
      else if expiry_unit = "hours" then some (now + 3600 * v)
      else if expiry_unit = "days" then some (now + 86400 * v)
      else some (now + 60 * v)

/-- The `max_views` handling of the form route (src/app.py lines 141-149):
empty ↦ no limit, non-positive ↦ no limit, unparsable ↦ flash an error
(modelled as `Except.error`). -/
def formMaxViews (s : String) : Except Unit (Option Int) :=
  if s = "" then Except.ok none
  else
    match int_parse s with
    | some v => Except.ok (if v ≤ 0 then none else some v)
    | none => Except.error ()

/-- A JSON value that can arrive in the `max_views` field of the API body. -/
inductive Jv where
  | num : Int → Jv
  | str : String → Jv
deriving DecidableEq, Repr

/-- The `max_views` handling of the JSON API route (src/app.py lines
204-209): `int(...)` applied to the JSON value, any exception ↦ `None`.
Note there is no positivity check. -/
def api_max_views (j : Option Jv) : Option Int :=
  match j with
  | none => none
  | some (Jv.num n) => some n
  | some (Jv.str s) =>
    match int_parse s with
    | some v => some v
    | none => none

/-- Outcome of the form `create` route. -/
inductive CreateResult where
  | noPayload
  | badMaxViews
  | commitFailed
  | created (key : String)
deriving DecidableEq, Repr

/-- The form `create` route (src/app.py lines 116-189).  `enc` is Fernet
encryption, `key` the handle drawn by `generate_unique_key`, `file` the
optional upload as (filename, raw bytes, mimetype) — `secure_filename` is
modelled as the identity — and `commitOk` whether the final
`db.session.commit()` succeeds (a failure propagates as an exception,
`CreateResult.commitFailed`). -/
def create (enc : String → String) (commitOk : Bool) (now : Int) (key : String)
    (content expiry_value expiry_unit legacy_minutes max_views : String)
    (file : Option (String × String × String)) (st : St) : St × CreateResult :=
  let ev := if expiry_value = "" ∧ legacy_minutes ≠ "" then legacy_minutes else expiry_value
  let eu := if expiry_value = "" ∧ legacy_minutes ≠ "" then "minutes" else expiry_unit
  let is_file : Bool :=
    match file with
    | some (n, _, _) => n != ""
    | none => false
  if !is_file && content == "" then (st, CreateResult.noPayload)
  else
    let expiry_time := parse_expiry ev eu now
    match formMaxViews max_views with
    | Except.error _ => (st, CreateResult.badMaxViews)
    | Except.ok mv =>
      let encrypted_text : Option String :=
        if content = "" then none else some (enc content)
      match file, is_file with
      | some (origname, raw, mimetype), true =>
        let fp := "uploads/" ++ key ++ ".bin"
        let fs1 := (fp, enc raw) :: st.fs
        let link : Link :=
          ⟨key, true, some origname, some fp,
            some (if mimetype = "" then "application/octet-stream" else mimetype),
            encrypted_text, expiry_time, mv, 0⟩
        if commitOk then (⟨st.db ++ [link], fs1⟩, CreateResult.created key)
        else (⟨st.db, fs1⟩, CreateResult.commitFailed)
      | _, _ =>
        let link : Link := ⟨key, false, none, none, none, encrypted_text, expiry_time, mv, 0⟩
        if commitOk then (⟨st.db ++ [link], st.fs⟩, CreateResult.created key)
        else (st, CreateResult.commitFailed)

/-- The JSON API create route (src/app.py lines 191-217); returns the new
key, or `none` for the 400 "content required" response. -/
def api_create (enc : String → String) (now : Int) (key : String)
    (content : String) (expiry_value expiry_unit : String)
    (max_views : Option Jv) (st : St) : St × Option String :=
  if content = "" then (st, none)
  else
    let expiry_time := parse_expiry expiry_value expiry_unit now
    let mv := api_max_views max_views
    let link : Link := ⟨key, false, none, none, none, some (enc content), expiry_time, mv, 0⟩
    (⟨st.db ++ [link], st.fs⟩, some key)

/-- The ExpiryPolicy predicate, written from the spec's words (§4.5):
expired iff (`expiryAt` present and `now > expiryAt`) or (`maxViews`
present and `viewCount ≥ maxViews`). -/
def isExpiredSpec (link : Link) (now : Int) : Bool :=
  (match link.expiry_time with
   | some e => decide (now > e)
   | none => false)
  ||
  (match link.max_views with
   | some m => decide ((link.views : Int) ≥ m)
   | none => false)

/-- `url_key` is `unique=True` in the schema: pairwise distinct keys. -/
def keysUnique (db : List Link) : Prop := (db.map Link.url_key).Nodup

instance (db : List Link) : Decidable (keysUnique db) := by
  unfold keysUnique; infer_instance

/-- Every blob deletion in the trace happens after some record deletion
(`seenRec` says whether a record deletion has already occurred). -/
def blobAfterRec (seenRec : Bool) : List Evt → Bool
  | [] => true
  | Evt.delRec _ :: r => blobAfterRec true r
  | Evt.delBlob _ :: r => seenRec && blobAfterRec seenRec r

/-! ### Helper lemmas about the store primitives -/

theorem findLink_key {db : List Link} {key : String} {l : Link}
    (h : findLink db key = some l) : l.url_key = key := by
  have h2 := List.find?_some h
  exact eq_of_beq h2

theorem findLink_mem {db : List Link} {key : String} {l : Link}
    (h : findLink db key = some l) : l ∈ db :=
  List.mem_of_find?_eq_some h

theorem findLink_eq_none_of_forall {db : List Link} {key : String}
    (h : ∀ l ∈ db, l.url_key ≠ key) : findLink db key = none := by
  unfold findLink
  rw [List.find?_eq_none]
  intro x hx
  simpa using h x hx

theorem keysUnique_cons {l : Link} {rest : List Link} (h : keysUnique (l :: rest)) :
    (∀ x ∈ rest, x.url_key ≠ l.url_key) ∧ keysUnique rest := by
  unfold keysUnique at h ⊢
  rw [List.map_cons, List.nodup_cons] at h
  refine ⟨fun x hx heq => h.1 ?_, h.2⟩
  exact heq ▸ List.mem_map_of_mem Link.url_key hx

theorem findLink_deleteLink_self {key : String} :
    ∀ {db : List Link}, keysUnique db → findLink (deleteLink db key) key = none := by
  intro db
  induction db with
  | nil => intro _; rfl
  | cons x rest ih =>
    intro h
    obtain ⟨hkeys, hrest⟩ := keysUnique_cons h
    unfold deleteLink
    rw [List.eraseP_cons]
    by_cases hx : x.url_key = key
    · have hb : (x.url_key == key) = true := by simpa using hx
      rw [hb, cond_true]
      exact findLink_eq_none_of_forall (fun l hl => hx ▸ hkeys l hl)
    · have hb : (x.url_key == key) = false := by simpa using hx
      rw [hb, cond_false]
      unfold findLink
      rw [List.find?_cons_of_neg _ (by simpa using hx)]
      exact ih hrest

theorem mem_deleteLink {db : List Link} {key : String} {a : Link}
    (h : a ∈ deleteLink db key) : a ∈ db :=
  (List.eraseP_sublist db).mem h

theorem updateLink_map_key {key : String} {l' : Link} (hk : l'.url_key = key) :
    ∀ db : List Link, (updateLink key l' db).map Link.url_key = db.map Link.url_key
  | [] => rfl
  | x :: rest => by
    unfold updateLink
    by_cases hx : x.url_key = key
    · have hb : (x.url_key == key) = true := by simpa using hx
      rw [if_pos hb]
      simp [hk, hx]
    · have hb : (x.url_key == key) = true → False := by simpa using hx
      rw [if_neg hb]
      simp [updateLink_map_key hk rest]

theorem keysUnique_updateLink {db : List Link} {key : String} {l' : Link}
    (hk : l'.url_key = key) (h : keysUnique db) : keysUnique (updateLink key l' db) := by
  unfold keysUnique at h ⊢
  rw [updateLink_map_key hk]
  exact h

theorem findLink_updateLink_self {key : String} {l l' : Link} (hk : l'.url_key = key) :
    ∀ {db : List Link}, findLink db key = some l →
      findLink (updateLink key l' db) key = some l' := by
  intro db
  induction db with
  | nil => intro h; simp [findLink] at h
  | cons x rest ih =>
    intro h
    unfold updateLink
    by_cases hx : (x.url_key == key) = true
    · rw [if_pos hx]
      unfold findLink
      exact List.find?_cons_of_pos (p := fun li : Link => li.url_key == key) _ (by simpa using hk)
    · rw [if_neg hx]
      unfold findLink at h ⊢
      rw [List.find?_cons_of_neg (p := fun li : Link => li.url_key == key) _ hx] at h
      rw [List.find?_cons_of_neg (p := fun li : Link => li.url_key == key) _ hx]
      exact ih h

theorem mem_updateLink {key : String} {l' : Link} :
    ∀ {db : List Link} {a : Link}, a ∈ updateLink key l' db → a ∈ db ∨ a = l'
  | [], a, h => by simp [updateLink] at h
  | x :: rest, a, h => by
    unfold updateLink at h
    by_cases hx : (x.url_key == key) = true
    · rw [if_pos hx] at h
      rcases List.mem_cons.mp h with h1 | h1
      · right; exact h1
      · left; exact List.mem_cons_of_mem _ h1
    · rw [if_neg hx] at h
      rcases List.mem_cons.mp h with h1 | h1
      · left; exact h1 ▸ List.mem_cons_self _ _
      · rcases mem_updateLink h1 with h2 | h2
        · left; exact List.mem_cons_of_mem _ h2
        · right; exact h2

theorem lookup_filter_self {p : String} :
    ∀ fs : List (String × String), (fs.filter (fun e => e.1 ≠ p)).lookup p = none
  | [] => rfl
  | (a, b) :: rest => by
    by_cases ha : a = p
    · have hd : (decide ((a, b).1 ≠ p)) = false := by simpa using ha
      simp only [List.filter_cons, hd]
      simpa using lookup_filter_self rest
    · have hd : (decide ((a, b).1 ≠ p)) = true := by simpa using ha
      have hb : (p == a) = false := by simpa using fun h => ha h.symm
      simp only [List.filter_cons, hd, if_true, List.lookup_cons, hb]
      exact lookup_filter_self rest

theorem lookup_eq_none_of_not_isSome {p : String} {fs : List (String × String)}
    (h : ¬(fs.lookup p).isSome) : fs.lookup p = none :=
  Option.not_isSome_iff_eq_none.mp h

theorem tryRemove_lookup_none {fs : List (String × String)} {p : String} (hp : p ≠ "") :
    ((tryRemove true fs (some p)).1).lookup p = none := by
  by_cases h : (fs.lookup p).isSome = true
  · simp only [tryRemove]
    rw [if_pos ⟨hp, h⟩]
    simpa using lookup_filter_self fs
  · simp only [tryRemove]
    rw [if_neg (fun hc => h hc.2)]
    exact lookup_eq_none_of_not_isSome h

theorem tryRemove_snd_indep (fs : List (String × String)) (fp : Option String)
    (r1 r2 : Bool) : (tryRemove r1 fs fp).2 = (tryRemove r2 fs fp).2 := by
  cases fp with
  | none => rfl
  | some p =>
    simp only [tryRemove]
    by_cases h : p ≠ "" ∧ (fs.lookup p).isSome = true
    · rw [if_pos h, if_pos h]
    · rw [if_neg h, if_neg h]

theorem blobAfterRec_true : ∀ tr : List Evt, blobAfterRec true tr = true
  | [] => rfl
  | Evt.delRec _ :: r => blobAfterRec_true r
  | Evt.delBlob _ :: r => by
    unfold blobAfterRec
    rw [blobAfterRec_true r]
    rfl

theorem blobAfterRec_evict (removeOk : Bool) (key : String) (fp : Option String)
    (st : St) : blobAfterRec false (evict removeOk key fp st).2 = true := by
  unfold evict blobAfterRec
  exact blobAfterRec_true _

theorem bool_ne_true {b : Bool} (h : b = false) : ¬b = true := by simp [h]

/-! ### Branch evaluation lemmas for the two serve routes -/

theorem serveLink_time {dec : String → Option String} {removeOk : Bool} {now : Int}
    {key : String} {st : St} {link : Link} (h : timeExpired link now = true) :
    serveLink dec removeOk now key st link =
      ((evict removeOk key link.file_path st).1, ServeResult.expiredTime,
        (evict removeOk key link.file_path st).2) := by
  unfold serveLink
  rw [if_pos h]

theorem serveLink_views {dec : String → Option String} {removeOk : Bool} {now : Int}
    {key : String} {st : St} {link : Link} (h1 : timeExpired link now = false)
    (h2 : viewsExhausted link = true) :
    serveLink dec removeOk now key st link =
      ((evict removeOk key link.file_path st).1, ServeResult.expiredViews,
        (evict removeOk key link.file_path st).2) := by
  unfold serveLink
  rw [if_neg (bool_ne_true h1), if_pos h2]

theorem serveLink_page_evict {dec : String → Option String} {removeOk : Bool} {now : Int}
    {key : String} {st : St} {link : Link} (h1 : timeExpired link now = false)
    (h2 : viewsExhausted link = false) (h3 : viewsExhausted (incViews link) = true) :
    serveLink dec removeOk now key st link =
      ((evict removeOk key link.file_path ⟨updateLink key (incViews link) st.db, st.fs⟩).1,
        ServeResult.page (contentPlain dec link) (fileInfo st key link) (remainingOf link),
        (evict removeOk key link.file_path ⟨updateLink key (incViews link) st.db, st.fs⟩).2) := by
  unfold serveLink
  rw [if_neg (bool_ne_true h1), if_neg (bool_ne_true h2)]
  dsimp only
  rw [if_pos h3]

theorem serveLink_page_keep {dec : String → Option String} {removeOk : Bool} {now : Int}
    {key : String} {st : St} {link : Link} (h1 : timeExpired link now = false)
    (h2 : viewsExhausted link = false) (h3 : viewsExhausted (incViews link) = false) :
    serveLink dec removeOk now key st link =
      (⟨updateLink key (incViews link) st.db, st.fs⟩,
        ServeResult.page (contentPlain dec link) (fileInfo st key link) (remainingOf link),
        []) := by
  unfold serveLink
  rw [if_neg (bool_ne_true h1), if_neg (bool_ne_true h2)]
  dsimp only
  rw [if_neg (bool_ne_true h3)]

theorem serve_notFound {dec : String → Option String} {removeOk : Bool} {now : Int}
    {key : String} {st : St} (h : findLink st.db key = none) :
    serve dec removeOk now key st = (st, ServeResult.notFound, []) := by
  unfold serve
  rw [h]

theorem serve_found {dec : String → Option String} {removeOk : Bool} {now : Int}
    {key : String} {st : St} {link : Link} (h : findLink st.db key = some link) :
    serve dec removeOk now key st = serveLink dec removeOk now key st link := by
  unfold serve
  rw [h]

theorem downloadLink_notFile {decB : String → Option String} {removeOk : Bool} {now : Int}
    {key : String} {st : St} {link : Link} (h : link.is_file = false) :
    downloadLink decB removeOk now key st link = (st, DlResult.notFound, []) := by
  unfold downloadLink
  rw [if_pos (by simp [h])]

theorem downloadLink_time {decB : String → Option String} {removeOk : Bool} {now : Int}
    {key : String} {st : St} {link : Link} (hf : link.is_file = true)
    (h : timeExpired link now = true) :
    downloadLink decB removeOk now key st link =
      ((evict removeOk key link.file_path st).1, DlResult.expiredTime,
        (evict removeOk key link.file_path st).2) := by
  unfold downloadLink
  rw [if_neg (by simp [hf]), if_pos h]

theorem downloadLink_views {decB : String → Option String} {removeOk : Bool} {now : Int}
    {key : String} {st : St} {link : Link} (hf : link.is_file = true)
    (h1 : timeExpired link now = false) (h2 : viewsExhausted link = true) :
    downloadLink decB removeOk now key st link =
      ((evict removeOk key link.file_path st).1, DlResult.expiredViews,
        (evict removeOk key link.file_path st).2) := by
  unfold downloadLink
  rw [if_neg (by simp [hf]), if_neg (bool_ne_true h1), if_pos h2]

theorem downloadLink_decFail {decB : String → Option String} {removeOk : Bool} {now : Int}
    {key : String} {st : St} {link : Link} {p bts : String} (hf : link.is_file = true)
    (h1 : timeExpired link now = false) (h2 : viewsExhausted link = false)
    (hp : link.file_path = some p) (hpne : p ≠ "") (hl : st.fs.lookup p = some bts)
    (hd : decB bts = none) :
    downloadLink decB removeOk now key st link = (st, DlResult.decryptFail, []) := by
  unfold downloadLink
  rw [if_neg (by simp [hf]), if_neg (bool_ne_true h1), if_neg (bool_ne_true h2), hp]
  dsimp only
  rw [if_neg hpne, hl]
  dsimp only
  rw [hd]

theorem downloadLink_out_keep {decB : String → Option String} {removeOk : Bool} {now : Int}
    {key : String} {st : St} {link : Link} {p bts data : String} (hf : link.is_file = true)
    (h1 : timeExpired link now = false) (h2 : viewsExhausted link = false)
    (hp : link.file_path = some p) (hpne : p ≠ "") (hl : st.fs.lookup p = some bts)
    (hd : decB bts = some data) (h3 : viewsExhausted (incViews link) = false) :
    downloadLink decB removeOk now key st link =
      (⟨updateLink key (incViews link) st.db, st.fs⟩,
        DlResult.fileOut data (dlFilename key link) (dlMime link), []) := by
  unfold downloadLink
  rw [if_neg (by simp [hf]), if_neg (bool_ne_true h1), if_neg (bool_ne_true h2), hp]
  dsimp only
  rw [if_neg hpne, hl]
  dsimp only
  rw [hd]
  dsimp only
  rw [if_neg (bool_ne_true h3)]

theorem downloadLink_out_evict {decB : String → Option String} {removeOk : Bool} {now : Int}
    {key : String} {st : St} {link : Link} {p bts data : String} (hf : link.is_file = true)
    (h1 : timeExpired link now = false) (h2 : viewsExhausted link = false)
    (hp : link.file_path = some p) (hpne : p ≠ "") (hl : st.fs.lookup p = some bts)
    (hd : decB bts = some data) (h3 : viewsExhausted (incViews link) = true) :
    downloadLink decB removeOk now key st link =
      ((evict removeOk key link.file_path ⟨updateLink key (incViews link) st.db, st.fs⟩).1,
        DlResult.fileOut data (dlFilename key link) (dlMime link),
        (evict removeOk key link.file_path ⟨updateLink key (incViews link) st.db, st.fs⟩).2) := by
  unfold downloadLink
  rw [if_neg (by simp [hf]), if_neg (bool_ne_true h1), if_neg (bool_ne_true h2), hp]
  dsimp only
  rw [if_neg hpne, hl]
  dsimp only
  rw [hd]
  dsimp only
  rw [if_pos h3]

theorem download_found {decB : String → Option String} {removeOk : Bool} {now : Int}
    {key : String} {st : St} {link : Link} (h : findLink st.db key = some link) :
    download_file decB removeOk now key st = downloadLink decB removeOk now key st link := by
  unfold download_file
  rw [h]

theorem download_notFound {decB : String → Option String} {removeOk : Bool} {now : Int}
    {key : String} {st : St} (h : findLink st.db key = none) :
    download_file decB removeOk now key st = (st, DlResult.notFound, []) := by
  unfold download_file
  rw [h]

theorem bool_eq_false {b : Bool} (h : ¬b = true) : b = false := by
  cases b
  · rfl
  · exact absurd rfl h

theorem downloadLink_noPath {decB : String → Option String} {removeOk : Bool} {now : Int}
    {key : String} {st : St} {link : Link} (hf : link.is_file = true)
    (h1 : timeExpired link now = false) (h2 : viewsExhausted link = false)
    (hp : link.file_path = none) :
    downloadLink decB removeOk now key st link = (st, DlResult.fileMissing, []) := by
  unfold downloadLink
  rw [if_neg (by simp [hf]), if_neg (bool_ne_true h1), if_neg (bool_ne_true h2), hp]

theorem downloadLink_emptyPath {decB : String → Option String} {removeOk : Bool} {now : Int}
    {key : String} {st : St} {link : Link} (hf : link.is_file = true)
    (h1 : timeExpired link now = false) (h2 : viewsExhausted link = false)
    (hp : link.file_path = some "") :
    downloadLink decB removeOk now key st link = (st, DlResult.fileMissing, []) := by
  unfold downloadLink
  rw [if_neg (by simp [hf]), if_neg (bool_ne_true h1), if_neg (bool_ne_true h2), hp]
  dsimp only
  rw [if_pos rfl]

theorem downloadLink_missingBlob {decB : String → Option String} {removeOk : Bool} {now : Int}
    {key : String} {st : St} {link : Link} {p : String} (hf : link.is_file = true)
    (h1 : timeExpired link now = false) (h2 : viewsExhausted link = false)
    (hp : link.file_path = some p) (hpne : p ≠ "") (hl : st.fs.lookup p = none) :
    downloadLink decB removeOk now key st link = (st, DlResult.fileMissing, []) := by
  unfold downloadLink
  rw [if_neg (by simp [hf]), if_neg (bool_ne_true h1), if_neg (bool_ne_true h2), hp]
  dsimp only
  rw [if_neg hpne, hl]

theorem int_parse_empty : int_parse "" = none := rfl

/-! ### Claim theorems -/

/-- C6: a non-positive or non-numeric expiry magnitude yields no expiry
(`none`) without an error, and a positive integer magnitude `v` with unit
selector among minutes/hours/days yields the current time plus `v` of
that unit (60, 3600 and 86400 seconds respectively). -/
theorem C6_parse_expiry_spec (s u : String) (now : Int) :
    (int_parse s = none → parse_expiry s u now = none) ∧
    (∀ v : Int, int_parse s = some v → v ≤ 0 → parse_expiry s u now = none) ∧
    (∀ v : Int, int_parse s = some v → 0 < v →
      (u = "minutes" → parse_expiry s u now = some (now + 60 * v)) ∧
      (u = "hours" → parse_expiry s u now = some (now + 3600 * v)) ∧
      (u = "days" → parse_expiry s u now = some (now + 86400 * v))) := by
  refine ⟨?_, ?_, ?_⟩
  · intro h
    unfold parse_expiry
    by_cases hs : s = ""
    · rw [if_pos hs]
    · rw [if_neg hs, h]
  · intro v hv hle
    unfold parse_expiry
    by_cases hs : s = ""
    · rw [if_pos hs]
    · rw [if_neg hs, hv]
      dsimp only
      rw [if_pos hle]
  · intro v hv hpos
    have hs : s ≠ "" := by
      intro h
      rw [h, int_parse_empty] at hv
      exact Option.noConfusion hv
    have hle : ¬v ≤ 0 := not_le.mpr hpos
    refine ⟨?_, ?_, ?_⟩ <;> intro hu
    · unfold parse_expiry
      rw [if_neg hs, hv]
      dsimp only
      rw [if_neg hle, hu, if_pos rfl]
    · unfold parse_expiry
      rw [if_neg hs, hv]
      dsimp only
      rw [if_neg hle, hu, if_neg (by decide), if_pos rfl]
    · unfold parse_expiry
      rw [if_neg hs, hv]
      dsimp only
      rw [if_neg hle, hu, if_neg (by decide), if_neg (by decide), if_pos rfl]

/-- C6 witness: concrete evaluations of `C6_parse_expiry_spec`. -/
theorem C6_parse_expiry_spec_witness :
    int_parse "7" = some 7 ∧ (0:Int) < 7 ∧
    parse_expiry "7" "hours" 100 = some (100 + 3600 * 7) :=
  ⟨by decide, by decide,
    ((C6_parse_expiry_spec "7" "hours" 100).2.2 7 (by decide) (by decide)).2.1 rfl⟩

/-- C5 counterexample: a `create` with a file upload whose metadata commit
fails leaves the encrypted blob orphaned in the upload folder — no
best-effort rollback delete is attempted anywhere in `create`
(src/app.py lines 162-189 have no try/except around the commit). -/
theorem C5_rollback_counterexample :
    (create (fun s => String.append s "!") false 0 "K" "" "" "minutes" "" ""
        (some ("doc.txt", "DATA", "text/plain")) ⟨[], []⟩).2 = CreateResult.commitFailed ∧
    ((create (fun s => String.append s "!") false 0 "K" "" "" "minutes" "" ""
        (some ("doc.txt", "DATA", "text/plain")) ⟨[], []⟩).1).fs.lookup "uploads/K.bin" =
      some "DATA!" := by decide

/-- C5 amended: in `create`, a failure of the metadata commit after the
encrypted blob has been written performs no rollback: the create fails,
the record store is unchanged, and the written blob remains on disk. -/
theorem C5_blob_orphaned_on_commit_failure
    (enc : String → String) (now : Int) (key : String)
    (content expiry_value expiry_unit legacy_minutes max_views : String)
    (origname raw mimetype : String) (st : St) (mv : Option Int)
    (hn : origname ≠ "") (hmv : formMaxViews max_views = Except.ok mv) :
    (create enc false now key content expiry_value expiry_unit legacy_minutes max_views
        (some (origname, raw, mimetype)) st).2 = CreateResult.commitFailed ∧
    ((create enc false now key content expiry_value expiry_unit legacy_minutes max_views
        (some (origname, raw, mimetype)) st).1).db = st.db ∧
    ((create enc false now key content expiry_value expiry_unit legacy_minutes max_views
        (some (origname, raw, mimetype)) st).1).fs =
      ("uploads/" ++ key ++ ".bin", enc raw) :: st.fs := by
  have hif : (origname != "") = true := by simpa using hn
  unfold create
  dsimp only
  rw [hif, hmv]
  exact ⟨rfl, rfl, rfl⟩

/-- C5 amended witness: `C5_blob_orphaned_on_commit_failure` at a concrete
input. -/
theorem C5_blob_orphaned_on_commit_failure_witness :
    ("doc.txt" : String) ≠ "" ∧ formMaxViews "" = Except.ok none ∧
    ((create (fun s => String.append s "!") false 0 "K" "" "" "minutes" "" ""
        (some ("doc.txt", "RAW", "text/plain")) ⟨[], []⟩).2 = CreateResult.commitFailed ∧
      ((create (fun s => String.append s "!") false 0 "K" "" "" "minutes" "" ""
        (some ("doc.txt", "RAW", "text/plain")) ⟨[], []⟩).1).db = ([] : List Link) ∧
      ((create (fun s => String.append s "!") false 0 "K" "" "" "minutes" "" ""
        (some ("doc.txt", "RAW", "text/plain")) ⟨[], []⟩).1).fs =
        ("uploads/" ++ "K" ++ ".bin", String.append "RAW" "!") :: ([] : List (String × String))) :=
  ⟨by decide, rfl,
    C5_blob_orphaned_on_commit_failure (fun s => String.append s "!") 0 "K" "" "" "minutes" "" ""
      "doc.txt" "RAW" "text/plain" ⟨[], []⟩ none (by decide) rfl⟩

/-- C10: the form create route converts a non-positive `max_views` to
absent, the JSON API route stores any integer `max_views` verbatim with
no positivity check, and a record with `max_views = 0` is evicted on its
first `serve` (time- or view-expired, deleted) and its content is never
returned. -/
theorem C10_api_zero_max_views :
    (∀ (s : String) (v : Int), int_parse s = some v → v ≤ 0 →
      formMaxViews s = Except.ok none) ∧
    (∀ v : Int, api_max_views (some (Jv.num v)) = some v) ∧
    (∀ (enc : String → String) (now : Int) (key content ev eu : String) (v : Int) (st : St),
      content ≠ "" →
      ((api_create enc now key content ev eu (some (Jv.num v)) st).1).db =
        st.db ++ [⟨key, false, none, none, none, some (enc content),
          parse_expiry ev eu now, some v, 0⟩]) ∧
    (∀ (dec : String → Option String) (removeOk : Bool) (now : Int) (key : String)
      (st : St) (link : Link), keysUnique st.db → findLink st.db key = some link →
      link.max_views = some 0 →
      ((serve dec removeOk now key st).2.1 = ServeResult.expiredTime ∨
        (serve dec removeOk now key st).2.1 = ServeResult.expiredViews) ∧
      findLink ((serve dec removeOk now key st).1).db key = none) := by
  refine ⟨?_, ?_, ?_, ?_⟩
  · intro s v hv hle
    unfold formMaxViews
    have hs : s ≠ "" := by
      intro h
      rw [h, int_parse_empty] at hv
      exact Option.noConfusion hv
    rw [if_neg hs, hv]
    dsimp only
    rw [if_pos hle]
  · intro v
    rfl
  · intro enc now key content ev eu v st hc
    unfold api_create
    rw [if_neg hc]
    rfl
  · intro dec removeOk now key st link hu hf hm
    have hve : viewsExhausted link = true := by
      unfold viewsExhausted
      rw [hm]
      simp [Int.natCast_nonneg]
    rw [serve_found hf]
    by_cases ht : timeExpired link now = true
    · rw [serveLink_time ht]
      refine ⟨Or.inl rfl, ?_⟩
      exact findLink_deleteLink_self hu
    · have ht' : timeExpired link now = false := by
        cases h : timeExpired link now
        · rfl
        · exact absurd h ht
      rw [serveLink_views ht' hve]
      refine ⟨Or.inr rfl, ?_⟩
      exact findLink_deleteLink_self hu

/-- C1: for a fresh record with `maxViews = 1` (and not time-expired), the
first `serve` returns the decrypted content with `remaining = 0` and
deletes the record in the same call, and a second `serve` on the same
handle answers not-found. -/
theorem C1_view_budget_exhaustion (dec : String → Option String) (removeOk : Bool)
    (now : Int) (key : String) (st : St) (link : Link) (ct pt : String)
    (hu : keysUnique st.db) (hf : findLink st.db key = some link)
    (hmv : link.max_views = some 1) (hv : link.views = 0)
    (ht : timeExpired link now = false)
    (hct : link.content = some ct) (hcne : ct ≠ "") (hdec : dec ct = some pt) :
    (∃ fi, (serve dec removeOk now key st).2.1 = ServeResult.page (some pt) fi (some 0)) ∧
    findLink ((serve dec removeOk now key st).1).db key = none ∧
    (∀ (d : String → Option String) (r : Bool) (n : Int),
      (serve d r n key ((serve dec removeOk now key st).1)).2.1 = ServeResult.notFound) := by
  have hkey : link.url_key = key := findLink_key hf
  have hve : viewsExhausted link = false := by
    unfold viewsExhausted
    rw [hmv, hv]
    decide
  have hve' : viewsExhausted (incViews link) = true := by
    unfold viewsExhausted incViews
    dsimp only
    rw [hmv, hv]
    decide
  have hcp : contentPlain dec link = some pt := by
    unfold contentPlain
    rw [hct]
    dsimp only
    rw [if_neg hcne, hdec]
  have hrem : remainingOf link = some 0 := by
    unfold remainingOf
    rw [hmv, hv]
    decide
  have hdel : keysUnique (updateLink key (incViews link) st.db) :=
    keysUnique_updateLink (show (incViews link).url_key = key from hkey) hu
  have hnone : findLink (deleteLink (updateLink key (incViews link) st.db) key) key = none :=
    findLink_deleteLink_self hdel
  rw [serve_found hf, serveLink_page_evict ht hve hve']
  refine ⟨⟨fileInfo st key link, ?_⟩, ?_, ?_⟩
  · dsimp only
    rw [hcp, hrem]
  · exact hnone
  · intro d r n
    rw [serve_notFound hnone]

/-- C1 witness: `C1_view_budget_exhaustion` at a concrete record. -/
theorem C1_view_budget_exhaustion_witness :
    (∃ fi, (serve (fun _ => some "pt") true 0 "k"
        ⟨[⟨"k", false, none, none, none, some "ct", none, some 1, 0⟩], []⟩).2.1 =
      ServeResult.page (some "pt") fi (some 0)) ∧
    findLink ((serve (fun _ => some "pt") true 0 "k"
        ⟨[⟨"k", false, none, none, none, some "ct", none, some 1, 0⟩], []⟩).1).db "k" = none ∧
    (∀ (d : String → Option String) (r : Bool) (n : Int),
      (serve d r n "k" ((serve (fun _ => some "pt") true 0 "k"
        ⟨[⟨"k", false, none, none, none, some "ct", none, some 1, 0⟩], []⟩).1)).2.1 =
      ServeResult.notFound) :=
  C1_view_budget_exhaustion (fun _ => some "pt") true 0 "k"
    ⟨[⟨"k", false, none, none, none, some "ct", none, some 1, 0⟩], []⟩
    ⟨"k", false, none, none, none, some "ct", none, some 1, 0⟩ "ct" "pt"
    (by decide) rfl rfl rfl rfl rfl (by decide) rfl

/-- C2: `serve` treats a found record as expired exactly when the spec
predicate `isExpiredSpec` holds of the pre-increment counter, and (when it
is not pre-expired) deletes the record after serving exactly when the same
predicate holds of the post-increment counter. -/
theorem C2_expiry_predicate (dec : String → Option String) (removeOk : Bool)
    (now : Int) (key : String) (st : St) (link : Link)
    (hu : keysUnique st.db) (hf : findLink st.db key = some link) :
    (((serve dec removeOk now key st).2.1 = ServeResult.expiredTime ∨
      (serve dec removeOk now key st).2.1 = ServeResult.expiredViews) ↔
      isExpiredSpec link now = true) ∧
    (isExpiredSpec link now = false →
      (∃ c fi r, (serve dec removeOk now key st).2.1 = ServeResult.page c fi r) ∧
      (findLink ((serve dec removeOk now key st).1).db key = none ↔
        isExpiredSpec (incViews link) now = true)) := by
  have hkey : link.url_key = key := findLink_key hf
  have hspec : isExpiredSpec link now = (timeExpired link now || viewsExhausted link) := rfl
  have hspec' : isExpiredSpec (incViews link) now =
      (timeExpired link now || viewsExhausted (incViews link)) := rfl
  rw [serve_found hf]
  by_cases ht : timeExpired link now = true
  · rw [serveLink_time ht]
    constructor
    · rw [hspec, ht]
      simp
    · intro hfalse
      rw [hspec, ht] at hfalse
      simp at hfalse
  · have ht' : timeExpired link now = false := by
      cases h : timeExpired link now
      · rfl
      · exact absurd h ht
    by_cases hve : viewsExhausted link = true
    · rw [serveLink_views ht' hve]
      constructor
      · rw [hspec, ht', hve]
        simp
      · intro hfalse
        rw [hspec, ht', hve] at hfalse
        simp at hfalse
    · have hve' : viewsExhausted link = false := by
        cases h : viewsExhausted link
        · rfl
        · exact absurd h hve
      have hpre : isExpiredSpec link now = false := by
        rw [hspec, ht', hve']
        rfl
      by_cases hpost : viewsExhausted (incViews link) = true
      · rw [serveLink_page_evict ht' hve' hpost]
        refine ⟨?_, ?_⟩
        · rw [hpre]
          simp
        · intro _
          refine ⟨⟨_, _, _, rfl⟩, ?_⟩
          have hnone : findLink (deleteLink (updateLink key (incViews link) st.db) key) key
              = none :=
            findLink_deleteLink_self
              (keysUnique_updateLink (show (incViews link).url_key = key from hkey) hu)
          rw [hspec', ht', hpost]
          simpa using hnone
      · have hpost' : viewsExhausted (incViews link) = false := by
          cases h : viewsExhausted (incViews link)
          · rfl
          · exact absurd h hpost
        rw [serveLink_page_keep ht' hve' hpost']
        refine ⟨?_, ?_⟩
        · rw [hpre]
          simp
        · intro _
          refine ⟨⟨_, _, _, rfl⟩, ?_⟩
          have hsome : findLink (updateLink key (incViews link) st.db) key
              = some (incViews link) :=
            findLink_updateLink_self (show (incViews link).url_key = key from hkey) hf
          rw [hspec', ht', hpost']
          simp [hsome]

/-- C2 witness: `C2_expiry_predicate` at a concrete record. -/
theorem C2_expiry_predicate_witness :
    (((serve (fun _ => some "pt") true 0 "k"
        ⟨[⟨"k", false, none, none, none, some "ct", none, some 2, 0⟩], []⟩).2.1 =
        ServeResult.expiredTime ∨
      (serve (fun _ => some "pt") true 0 "k"
        ⟨[⟨"k", false, none, none, none, some "ct", none, some 2, 0⟩], []⟩).2.1 =
        ServeResult.expiredViews) ↔
      isExpiredSpec ⟨"k", false, none, none, none, some "ct", none, some 2, 0⟩ 0 = true) ∧
    (isExpiredSpec ⟨"k", false, none, none, none, some "ct", none, some 2, 0⟩ 0 = false →
      (∃ c fi r, (serve (fun _ => some "pt") true 0 "k"
        ⟨[⟨"k", false, none, none, none, some "ct", none, some 2, 0⟩], []⟩).2.1 =
        ServeResult.page c fi r) ∧
      (findLink ((serve (fun _ => some "pt") true 0 "k"
          ⟨[⟨"k", false, none, none, none, some "ct", none, some 2, 0⟩], []⟩).1).db "k" = none ↔
        isExpiredSpec (incViews ⟨"k", false, none, none, none, some "ct", none, some 2, 0⟩) 0 =
          true)) :=
  C2_expiry_predicate (fun _ => some "pt") true 0 "k"
    ⟨[⟨"k", false, none, none, none, some "ct", none, some 2, 0⟩], []⟩
    ⟨"k", false, none, none, none, some "ct", none, some 2, 0⟩ (by decide) rfl

/-- C4: a record whose `expiry_time` lies strictly in the past is answered
with the time-expired eviction outcome (no content, no increment), the
record is gone from the store, and its blob (when present, with `os.remove`
succeeding) is gone from disk. -/
theorem C4_time_expiry_evicts (dec : String → Option String) (now : Int)
    (key : String) (st : St) (link : Link) (e : Int)
    (hu : keysUnique st.db) (hf : findLink st.db key = some link)
    (he : link.expiry_time = some e) (hnow : e < now) :
    (serve dec true now key st).2.1 = ServeResult.expiredTime ∧
    findLink ((serve dec true now key st).1).db key = none ∧
    (∀ p, link.file_path = some p → p ≠ "" →
      ((serve dec true now key st).1).fs.lookup p = none) := by
  have ht : timeExpired link now = true := by
    unfold timeExpired
    rw [he]
    simpa using hnow
  rw [serve_found hf, serveLink_time ht]
  refine ⟨rfl, findLink_deleteLink_self hu, ?_⟩
  intro p hp hpne
  show ((tryRemove true st.fs link.file_path).1).lookup p = none
  rw [hp]
  exact tryRemove_lookup_none hpne

/-- C4 witness: `C4_time_expiry_evicts` at a concrete record with a blob. -/
theorem C4_time_expiry_evicts_witness :
    (serve (fun _ => some "pt") true 10 "f"
      ⟨[⟨"f", true, some "doc.txt", some "uploads/f.bin", some "text/plain", none,
          some 3, none, 0⟩], [("uploads/f.bin", "ENC")]⟩).2.1 = ServeResult.expiredTime ∧
    findLink ((serve (fun _ => some "pt") true 10 "f"
      ⟨[⟨"f", true, some "doc.txt", some "uploads/f.bin", some "text/plain", none,
          some 3, none, 0⟩], [("uploads/f.bin", "ENC")]⟩).1).db "f" = none ∧
    (∀ p, (⟨"f", true, some "doc.txt", some "uploads/f.bin", some "text/plain", none,
          some 3, none, 0⟩ : Link).file_path = some p → p ≠ "" →
      ((serve (fun _ => some "pt") true 10 "f"
        ⟨[⟨"f", true, some "doc.txt", some "uploads/f.bin", some "text/plain", none,
            some 3, none, 0⟩], [("uploads/f.bin", "ENC")]⟩).1).fs.lookup p = none) :=
  C4_time_expiry_evicts (fun _ => some "pt") 10 "f"
    ⟨[⟨"f", true, some "doc.txt", some "uploads/f.bin", some "text/plain", none,
        some 3, none, 0⟩], [("uploads/f.bin", "ENC")]⟩
    ⟨"f", true, some "doc.txt", some "uploads/f.bin", some "text/plain", none,
        some 3, none, 0⟩ 3 (by decide) rfl rfl (by decide)

theorem evict_snd_indep (key : String) (fp : Option String) (st : St) (r1 r2 : Bool) :
    (evict r1 key fp st).2 = (evict r2 key fp st).2 := by
  unfold evict
  rw [tryRemove_snd_indep st.fs fp r1 r2]

theorem serve_trace_ok (dec : String → Option String) (removeOk : Bool) (now : Int)
    (key : String) (st : St) :
    blobAfterRec false (serve dec removeOk now key st).2.2 = true := by
  cases hf : findLink st.db key with
  | none =>
    rw [serve_notFound hf]
    rfl
  | some link =>
    rw [serve_found hf]
    by_cases ht : timeExpired link now = true
    · rw [serveLink_time ht]
      exact blobAfterRec_evict removeOk key link.file_path st
    · have ht' := bool_eq_false ht
      by_cases hv : viewsExhausted link = true
      · rw [serveLink_views ht' hv]
        exact blobAfterRec_evict removeOk key link.file_path st
      · have hv' := bool_eq_false hv
        by_cases hpost : viewsExhausted (incViews link) = true
        · rw [serveLink_page_evict ht' hv' hpost]
          exact blobAfterRec_evict removeOk key link.file_path _
        · rw [serveLink_page_keep ht' hv' (bool_eq_false hpost)]
          rfl

theorem download_trace_ok (decB : String → Option String) (removeOk : Bool) (now : Int)
    (key : String) (st : St) :
    blobAfterRec false (download_file decB removeOk now key st).2.2 = true := by
  cases hf : findLink st.db key with
  | none =>
    rw [download_notFound hf]
    rfl
  | some link =>
    rw [download_found hf]
    by_cases hisf : link.is_file = true
    · by_cases ht : timeExpired link now = true
      · rw [downloadLink_time hisf ht]
        exact blobAfterRec_evict removeOk key link.file_path st
      · have ht' := bool_eq_false ht
        by_cases hv : viewsExhausted link = true
        · rw [downloadLink_views hisf ht' hv]
          exact blobAfterRec_evict removeOk key link.file_path st
        · have hv' := bool_eq_false hv
          cases hp : link.file_path with
          | none =>
            rw [downloadLink_noPath hisf ht' hv' hp]
            rfl
          | some p =>
            by_cases hpe : p = ""
            · rw [downloadLink_emptyPath hisf ht' hv' (hpe ▸ hp)]
              rfl
            · cases hl : st.fs.lookup p with
              | none =>
                rw [downloadLink_missingBlob hisf ht' hv' hp hpe hl]
                rfl
              | some bts =>
                cases hd : decB bts with
                | none =>
                  rw [downloadLink_decFail hisf ht' hv' hp hpe hl hd]
                  rfl
                | some data =>
                  by_cases hpost : viewsExhausted (incViews link) = true
                  · rw [downloadLink_out_evict hisf ht' hv' hp hpe hl hd hpost]
                    exact blobAfterRec_evict removeOk key link.file_path _
                  · rw [downloadLink_out_keep hisf ht' hv' hp hpe hl hd
                      (bool_eq_false hpost)]
                    rfl
    · rw [downloadLink_notFile (bool_eq_false hisf)]
      rfl

theorem serve_removeOk_indep (dec : String → Option String) (r1 r2 : Bool) (now : Int)
    (key : String) (st : St) :
    (serve dec r1 now key st).2.1 = (serve dec r2 now key st).2.1 ∧
    ((serve dec r1 now key st).1).db = ((serve dec r2 now key st).1).db ∧
    (serve dec r1 now key st).2.2 = (serve dec r2 now key st).2.2 := by
  cases hf : findLink st.db key with
  | none =>
    rw [serve_notFound hf, serve_notFound hf]
    exact ⟨rfl, rfl, rfl⟩
  | some link =>
    rw [serve_found hf, serve_found hf]
    by_cases ht : timeExpired link now = true
    · rw [serveLink_time ht, serveLink_time ht]
      exact ⟨rfl, rfl, evict_snd_indep key link.file_path st r1 r2⟩
    · have ht' := bool_eq_false ht
      by_cases hv : viewsExhausted link = true
      · rw [serveLink_views ht' hv, serveLink_views ht' hv]
        exact ⟨rfl, rfl, evict_snd_indep key link.file_path st r1 r2⟩
      · have hv' := bool_eq_false hv
        by_cases hpost : viewsExhausted (incViews link) = true
        · rw [serveLink_page_evict ht' hv' hpost, serveLink_page_evict ht' hv' hpost]
          exact ⟨rfl, rfl, evict_snd_indep key link.file_path _ r1 r2⟩
        · rw [serveLink_page_keep ht' hv' (bool_eq_false hpost),
            serveLink_page_keep ht' hv' (bool_eq_false hpost)]
          exact ⟨rfl, rfl, rfl⟩

theorem download_removeOk_indep (decB : String → Option String) (r1 r2 : Bool) (now : Int)
    (key : String) (st : St) :
    (download_file decB r1 now key st).2.1 = (download_file decB r2 now key st).2.1 ∧
    ((download_file decB r1 now key st).1).db = ((download_file decB r2 now key st).1).db ∧
    (download_file decB r1 now key st).2.2 = (download_file decB r2 now key st).2.2 := by
  cases hf : findLink st.db key with
  | none =>
    rw [download_notFound hf, download_notFound hf]
    exact ⟨rfl, rfl, rfl⟩
  | some link =>
    rw [download_found hf, download_found hf]
    by_cases hisf : link.is_file = true
    · by_cases ht : timeExpired link now = true
      · rw [downloadLink_time hisf ht, downloadLink_time hisf ht]
        exact ⟨rfl, rfl, evict_snd_indep key link.file_path st r1 r2⟩
      · have ht' := bool_eq_false ht
        by_cases hv : viewsExhausted link = true
        · rw [downloadLink_views hisf ht' hv, downloadLink_views hisf ht' hv]
          exact ⟨rfl, rfl, evict_snd_indep key link.file_path st r1 r2⟩
        · have hv' := bool_eq_false hv
          cases hp : link.file_path with
          | none =>
            rw [downloadLink_noPath hisf ht' hv' hp, downloadLink_noPath hisf ht' hv' hp]
            exact ⟨rfl, rfl, rfl⟩
          | some p =>
            by_cases hpe : p = ""
            · rw [downloadLink_emptyPath hisf ht' hv' (hpe ▸ hp),
                downloadLink_emptyPath hisf ht' hv' (hpe ▸ hp)]
              exact ⟨rfl, rfl, rfl⟩
            · cases hl : st.fs.lookup p with
              | none =>
                rw [downloadLink_missingBlob hisf ht' hv' hp hpe hl,
                  downloadLink_missingBlob hisf ht' hv' hp hpe hl]
                exact ⟨rfl, rfl, rfl⟩
              | some bts =>
                cases hd : decB bts with
                | none =>
                  rw [downloadLink_decFail hisf ht' hv' hp hpe hl hd,
                    downloadLink_decFail hisf ht' hv' hp hpe hl hd]
                  exact ⟨rfl, rfl, rfl⟩
                | some data =>
                  by_cases hpost : viewsExhausted (incViews link) = true
                  · rw [downloadLink_out_evict hisf ht' hv' hp hpe hl hd hpost,
                      downloadLink_out_evict hisf ht' hv' hp hpe hl hd hpost]
                    exact ⟨rfl, rfl, evict_snd_indep key link.file_path _ r1 r2⟩
                  · rw [downloadLink_out_keep hisf ht' hv' hp hpe hl hd
                        (bool_eq_false hpost),
                      downloadLink_out_keep hisf ht' hv' hp hpe hl hd
                        (bool_eq_false hpost)]
                    exact ⟨rfl, rfl, rfl⟩
    · rw [downloadLink_notFile (bool_eq_false hisf),
        downloadLink_notFile (bool_eq_false hisf)]
      exact ⟨rfl, rfl, rfl⟩

/-- C8: in every eviction performed by `serve` or `download_file`, the
metadata record delete precedes any blob delete in the action trace, and
the outcome (result and record store) is independent of whether the blob
delete succeeds — blob-delete failures are swallowed. -/
theorem C8_eviction_order_and_swallow :
    (∀ (dec : String → Option String) (removeOk : Bool) (now : Int) (key : String)
      (st : St), blobAfterRec false (serve dec removeOk now key st).2.2 = true) ∧
    (∀ (decB : String → Option String) (removeOk : Bool) (now : Int) (key : String)
      (st : St), blobAfterRec false (download_file decB removeOk now key st).2.2 = true) ∧
    (∀ (dec : String → Option String) (r1 r2 : Bool) (now : Int) (key : String) (st : St),
      (serve dec r1 now key st).2.1 = (serve dec r2 now key st).2.1 ∧
      ((serve dec r1 now key st).1).db = ((serve dec r2 now key st).1).db ∧
      (serve dec r1 now key st).2.2 = (serve dec r2 now key st).2.2) ∧
    (∀ (decB : String → Option String) (r1 r2 : Bool) (now : Int) (key : String) (st : St),
      (download_file decB r1 now key st).2.1 = (download_file decB r2 now key st).2.1 ∧
      ((download_file decB r1 now key st).1).db =
        ((download_file decB r2 now key st).1).db ∧
      (download_file decB r1 now key st).2.2 = (download_file decB r2 now key st).2.2) :=
  ⟨serve_trace_ok, download_trace_ok, serve_removeOk_indep, download_removeOk_indep⟩

/-- C7: across `serve` and `download_file`, every record in the store
afterwards is either an original record left untouched or the looked-up
record with its view counter incremented by exactly one — the counter is
never reset or decremented, and the view-increment step is the only
record mutation. -/
theorem C7_views_monotone :
    (∀ (dec : String → Option String) (removeOk : Bool) (now : Int) (key : String)
      (st : St) (a : Link), a ∈ ((serve dec removeOk now key st).1).db →
      a ∈ st.db ∨ ∃ link, findLink st.db key = some link ∧ a = incViews link) ∧
    (∀ (decB : String → Option String) (removeOk : Bool) (now : Int) (key : String)
      (st : St) (a : Link), a ∈ ((download_file decB removeOk now key st).1).db →
      a ∈ st.db ∨ ∃ link, findLink st.db key = some link ∧ a = incViews link) := by
  constructor
  · intro dec removeOk now key st a ha
    cases hf : findLink st.db key with
    | none =>
      rw [serve_notFound hf] at ha
      exact Or.inl ha
    | some link =>
      rw [serve_found hf] at ha
      by_cases ht : timeExpired link now = true
      · rw [serveLink_time ht] at ha
        exact Or.inl (mem_deleteLink ha)
      · have ht' := bool_eq_false ht
        by_cases hv : viewsExhausted link = true
        · rw [serveLink_views ht' hv] at ha
          exact Or.inl (mem_deleteLink ha)
        · have hv' := bool_eq_false hv
          by_cases hpost : viewsExhausted (incViews link) = true
          · rw [serveLink_page_evict ht' hv' hpost] at ha
            rcases mem_updateLink (mem_deleteLink ha) with h1 | h1
            · exact Or.inl h1
            · exact Or.inr ⟨link, rfl, h1⟩
          · have hpost' := bool_eq_false hpost
            rw [serveLink_page_keep ht' hv' hpost'] at ha
            rcases mem_updateLink ha with h1 | h1
            · exact Or.inl h1
            · exact Or.inr ⟨link, rfl, h1⟩
  · intro decB removeOk now key st a ha
    cases hf : findLink st.db key with
    | none =>
      rw [download_notFound hf] at ha
      exact Or.inl ha
    | some link =>
      rw [download_found hf] at ha
      by_cases hisf : link.is_file = true
      · by_cases ht : timeExpired link now = true
        · rw [downloadLink_time hisf ht] at ha
          exact Or.inl (mem_deleteLink ha)
        · have ht' := bool_eq_false ht
          by_cases hv : viewsExhausted link = true
          · rw [downloadLink_views hisf ht' hv] at ha
            exact Or.inl (mem_deleteLink ha)
          · have hv' := bool_eq_false hv
            cases hp : link.file_path with
            | none =>
              rw [downloadLink_noPath hisf ht' hv' hp] at ha
              exact Or.inl ha
            | some p =>
              by_cases hpe : p = ""
              · rw [downloadLink_emptyPath hisf ht' hv' (hpe ▸ hp)] at ha
                exact Or.inl ha
              · cases hl : st.fs.lookup p with
                | none =>
                  rw [downloadLink_missingBlob hisf ht' hv' hp hpe hl] at ha
                  exact Or.inl ha
                | some bts =>
                  cases hd : decB bts with
                  | none =>
                    rw [downloadLink_decFail hisf ht' hv' hp hpe hl hd] at ha
                    exact Or.inl ha
                  | some data =>
                    by_cases hpost : viewsExhausted (incViews link) = true
                    · rw [downloadLink_out_evict hisf ht' hv' hp hpe hl hd hpost] at ha
                      rcases mem_updateLink (mem_deleteLink ha) with h1 | h1
                      · exact Or.inl h1
                      · exact Or.inr ⟨link, rfl, h1⟩
                    · have hpost' := bool_eq_false hpost
                      rw [downloadLink_out_keep hisf ht' hv' hp hpe hl hd hpost'] at ha
                      rcases mem_updateLink ha with h1 | h1
                      · exact Or.inl h1
                      · exact Or.inr ⟨link, rfl, h1⟩
      · have hisf' := bool_eq_false hisf
        rw [downloadLink_notFile hisf'] at ha
        exact Or.inl ha

/-- C7 witness: `C7_views_monotone` at a concrete store and serve call. -/
theorem C7_views_monotone_witness :
    (⟨"k", false, none, none, none, some "ct", none, some 5, 1⟩ : Link) ∈
      ((serve (fun _ => some "pt") true 0 "k"
        ⟨[⟨"k", false, none, none, none, some "ct", none, some 5, 0⟩], []⟩).1).db ∧
    ((⟨"k", false, none, none, none, some "ct", none, some 5, 1⟩ : Link) ∈
        ([⟨"k", false, none, none, none, some "ct", none, some 5, 0⟩] : List Link) ∨
      ∃ link, findLink [⟨"k", false, none, none, none, some "ct", none, some 5, 0⟩] "k" =
          some link ∧
        (⟨"k", false, none, none, none, some "ct", none, some 5, 1⟩ : Link) = incViews link) :=
  ⟨by decide,
    C7_views_monotone.1 (fun _ => some "pt") true 0 "k"
      ⟨[⟨"k", false, none, none, none, some "ct", none, some 5, 0⟩], []⟩
      ⟨"k", false, none, none, none, some "ct", none, some 5, 1⟩ (by decide)⟩

/-- C9: a failed blob decryption in `download_file` returns the error
outcome with the state fully unchanged (no increment, no delete), while a
failed text decryption in `serve` still serves a placeholder page and
increments the counter (or deletes the record if that increment exhausts
the budget). -/
theorem C9_decrypt_failure_asymmetry :
    (∀ (decB : String → Option String) (removeOk : Bool) (now : Int) (key : String)
      (st : St) (link : Link) (p bts : String),
      findLink st.db key = some link → link.is_file = true →
      timeExpired link now = false → viewsExhausted link = false →
      link.file_path = some p → p ≠ "" → st.fs.lookup p = some bts → decB bts = none →
      download_file decB removeOk now key st = (st, DlResult.decryptFail, [])) ∧
    (∀ (dec : String → Option String) (removeOk : Bool) (now : Int) (key : String)
      (st : St) (link : Link) (c : String),
      keysUnique st.db → findLink st.db key = some link →
      timeExpired link now = false → viewsExhausted link = false →
      link.content = some c → c ≠ "" → dec c = none →
      (∃ fi r, (serve dec removeOk now key st).2.1 =
        ServeResult.page (some "[Error: could not decrypt content]") fi r) ∧
      (findLink ((serve dec removeOk now key st).1).db key = some (incViews link) ∨
        findLink ((serve dec removeOk now key st).1).db key = none)) := by
  constructor
  · intro decB removeOk now key st link p bts hf hisf ht hv hp hpne hl hd
    rw [download_found hf, downloadLink_decFail hisf ht hv hp hpne hl hd]
  · intro dec removeOk now key st link c hu hf ht hv hct hcne hd
    have hkey : link.url_key = key := findLink_key hf
    have hcp : contentPlain dec link = some "[Error: could not decrypt content]" := by
      unfold contentPlain
      rw [hct]
      dsimp only
      rw [if_neg hcne, hd]
    rw [serve_found hf]
    by_cases hpost : viewsExhausted (incViews link) = true
    · rw [serveLink_page_evict ht hv hpost]
      refine ⟨⟨fileInfo st key link, remainingOf link, ?_⟩, Or.inr ?_⟩
      · dsimp only
        rw [hcp]
      · exact findLink_deleteLink_self
          (keysUnique_updateLink (show (incViews link).url_key = key from hkey) hu)
    · have hpost' := bool_eq_false hpost
      rw [serveLink_page_keep ht hv hpost']
      refine ⟨⟨fileInfo st key link, remainingOf link, ?_⟩, Or.inl ?_⟩
      · dsimp only
        rw [hcp]
      · exact findLink_updateLink_self (show (incViews link).url_key = key from hkey) hf

/-- C9 witness: `C9_decrypt_failure_asymmetry` at concrete records. -/
theorem C9_decrypt_failure_asymmetry_witness :
    download_file (fun _ => none) true 0 "f"
      ⟨[⟨"f", true, some "doc.txt", some "uploads/f.bin", some "text/plain", none, none,
          some 3, 0⟩], [("uploads/f.bin", "ENC")]⟩ =
      (⟨[⟨"f", true, some "doc.txt", some "uploads/f.bin", some "text/plain", none, none,
          some 3, 0⟩], [("uploads/f.bin", "ENC")]⟩, DlResult.decryptFail, []) ∧
    ((∃ fi r, (serve (fun _ => none) true 0 "k"
        ⟨[⟨"k", false, none, none, none, some "ct", none, some 5, 0⟩], []⟩).2.1 =
      ServeResult.page (some "[Error: could not decrypt content]") fi r) ∧
      (findLink ((serve (fun _ => none) true 0 "k"
          ⟨[⟨"k", false, none, none, none, some "ct", none, some 5, 0⟩], []⟩).1).db "k" =
        some (incViews ⟨"k", false, none, none, none, some "ct", none, some 5, 0⟩) ∨
       findLink ((serve (fun _ => none) true 0 "k"
          ⟨[⟨"k", false, none, none, none, some "ct", none, some 5, 0⟩], []⟩).1).db "k" =
        none)) :=
  ⟨C9_decrypt_failure_asymmetry.1 (fun _ => none) true 0 "f"
      ⟨[⟨"f", true, some "doc.txt", some "uploads/f.bin", some "text/plain", none, none,
          some 3, 0⟩], [("uploads/f.bin", "ENC")]⟩
      ⟨"f", true, some "doc.txt", some "uploads/f.bin", some "text/plain", none, none,
          some 3, 0⟩ "uploads/f.bin" "ENC" rfl rfl rfl (by decide) rfl (by decide) rfl rfl,
    C9_decrypt_failure_asymmetry.2 (fun _ => none) true 0 "k"
      ⟨[⟨"k", false, none, none, none, some "ct", none, some 5, 0⟩], []⟩
      ⟨"k", false, none, none, none, some "ct", none, some 5, 0⟩ "ct"
      (by decide) rfl rfl (by decide) rfl (by decide) rfl⟩

/-- C10 witness: `C10_api_zero_max_views` applied at concrete inputs. -/
theorem C10_api_zero_max_views_witness :
    formMaxViews "0" = Except.ok none ∧
    api_max_views (some (Jv.num 0)) = some 0 ∧
    (((serve (fun _ => some "pt") true 5 "z"
        ⟨[⟨"z", false, none, none, none, some "ct", none, some 0, 0⟩], []⟩).2.1 =
          ServeResult.expiredTime ∨
      (serve (fun _ => some "pt") true 5 "z"
        ⟨[⟨"z", false, none, none, none, some "ct", none, some 0, 0⟩], []⟩).2.1 =
          ServeResult.expiredViews) ∧
      findLink ((serve (fun _ => some "pt") true 5 "z"
        ⟨[⟨"z", false, none, none, none, some "ct", none, some 0, 0⟩], []⟩).1).db "z" = none) :=
  ⟨(C10_api_zero_max_views.1 "0" 0 (by decide) (by decide)),
    C10_api_zero_max_views.2.1 0,
    C10_api_zero_max_views.2.2.2 (fun _ => some "pt") true 5 "z"
      ⟨[⟨"z", false, none, none, none, some "ct", none, some 0, 0⟩], []⟩
      ⟨"z", false, none, none, none, some "ct", none, some 0, 0⟩
      (by decide) (by decide) rfl⟩

end SecureShare
